import Mathlib

/-!
Shallow embedding of the event-submission pipeline of the sentry-go client
(`src/client.go`): the data model (events, hints, client options), client
construction, the integration registry, the event pipeline
(sampling, preparation/defaulting, scope application, user filter, dispatch)
and the panic/error recovery helpers.

External effects of the Go code (the random draw, `uuid()`, `time.Now()`,
`os.Hostname()`, `os.Getenv`, the DSN parser and the transport) are passed
in explicitly as values or function parameters, and the calls the pipeline
makes to its external collaborators (the scope capability, the user filter
and the transport) are recorded in a trace so that short-circuiting can be
stated and proved.
-/

namespace Sentry

/-- SDK metadata package entry (`SdkPackage`). -/
structure SdkPackage where
  Name : String
  Version : String
deriving DecidableEq, Repr

/-- SDK metadata attached to every prepared event (`SdkInfo`). -/
structure SdkInfo where
  Name : String
  Version : String
  Integrations : List String
  Packages : List SdkPackage
deriving DecidableEq, Repr

/-- Modelled from the spec: `VERSION`, the SDK version constant, is not part of
the excerpt; its concrete value is irrelevant to every claim. -/
def VERSION : String := "0.0.0-beta"

/-- Modelled from the spec: `LevelInfo`, the severity-level constant used as the
default level, is not part of the excerpt; per the spec it is the string
denoting the "info" severity. -/
def LevelInfo : String := "info"

/-- The unit of reportable data (`Event`): identifier, timestamp, severity
level, message, server name, platform tag, transaction label, SDK metadata. -/
structure Event where
  EventID : String := ""
  Timestamp : Int := 0
  Level : String := ""
  Message : String := ""
  ServerName : String := ""
  Platform : String := ""
  Transaction : String := ""
  Sdk : SdkInfo := { Name := "", Version := "", Integrations := [], Packages := [] }
deriving DecidableEq, Repr

/-- An ambient propagation context (`context.Context`), abstracted to a token. -/
def Ctx := Nat
deriving DecidableEq, Repr

/-- Ephemeral per-capture-call context (`EventHint`); only the propagation
context field matters to the claims. -/
structure EventHint where
  Context : Option Ctx := none
deriving DecidableEq, Repr

/-- The fresh empty hint `&EventHint\x7b\x7d` substituted by `processEvent` when the
capture call supplied no hint. -/
def emptyEventHint : EventHint := { Context := none }

/-- A named, one-time-initialized plugin (`Integration`). The Go value is an
interface; we model it by its name together with an instance identity, so that
distinct registrations under the same name can be told apart. -/
structure Integration where
  Name : String
  id : Nat := 0
deriving DecidableEq, Repr

/-- Result of a transport delivery (`(*http.Response, error)`), abstracted. -/
structure SendResult where
  response : Option Nat := none
  err : Option String := none
deriving DecidableEq, Repr

/-- The transport capability (external collaborator, spec section 6): delivers one
prepared event. Its `Configure` hook is effect-only and is not modelled. -/
structure Transport where
  SendEvent : Event → SendResult

/-- The scope capability (`EventModifier`, external collaborator): mutates or
vetoes an event given the optional per-call hint. -/
structure EventModifier where
  ApplyToEvent : Event → Option EventHint → Option Event

/-- A parsed endpoint descriptor (`Dsn`), abstracted to its raw text. -/
structure Dsn where
  raw : String
deriving DecidableEq, Repr

/-- Configuration options supplied at construction time (`ClientOptions`).
`DebugWriter` (an `io.Writer`) is effect-only and is not modelled; the
pre-storage breadcrumb filter is irrelevant to every claim and omitted with it.
Defaults are the Go zero values. -/
structure ClientOptions where
  Dsn : String := ""
  Debug : Bool := false
  SampleRate : ℚ := 0
  BeforeSend : Option (Event → EventHint → Option Event) := none
  Integrations : Option (List Integration) := none
  Transport : Option Transport := none
  ServerName : String := ""
  Release : String := ""
  Dist : String := ""
  Environment : String := ""
  MaxBreadcrumbs : Int := 0

/-- The client (`Client`): configuration, parsed DSN, integration registry
(a string-keyed mapping, modelled as an association list with unique keys),
resolved transport. -/
structure Client where
  options : ClientOptions
  dsn : Option Dsn := none
  integrations : List (String × Integration) := []
  Transport : Transport

/-- Assignment `m[k] = v` into a Go `map[string]Integration`, modelled on an
association list: overwrite on collision, append otherwise. -/
def mapInsert (m : List (String × Integration)) (k : String) (v : Integration) :
    List (String × Integration) :=
  if m.any (fun p => p.1 = k) then
    m.map (fun p => if p.1 = k then (k, v) else p)
  else
    m ++ [(k, v)]

/-- `setupIntegrations`: build the integration mapping by iterating the
configured list once, registering each by name; returns the mapping together
with the sequence of `SetupOnce` invocations (one per registration, in input
order). A `nil` integrations slice builds no mapping. -/
def setupIntegrations (integrations : Option (List Integration)) :
    List (String × Integration) × List Integration :=
  match integrations with
  | none => ([], [])
  | some l => (l.foldl (fun m i => mapInsert m i.Name i) [], l)

/-- The lexicographic order `sort.Strings` sorts by, expressed on the character
data of the strings (so that it evaluates by kernel reduction). -/
def strLe (a b : String) : Prop := a.data ≤ b.data

instance : DecidableRel strLe :=
  fun a b => inferInstanceAs (Decidable (a.data ≤ b.data))

instance : IsTotal String strLe := ⟨fun a b => le_total a.data b.data⟩

instance : IsTrans String strLe := ⟨fun _ _ _ => le_trans⟩

instance : IsAntisymm String strLe :=
  ⟨fun _ _ h h' => String.toList_inj.mp (le_antisymm h h')⟩

/-- `strLe` agrees with the standard order on `String`. -/
theorem strLe_iff (a b : String) : strLe a b ↔ a ≤ b :=
  ⟨fun h => String.le_iff_toList_le.mpr h, fun h => String.le_iff_toList_le.mp h⟩

/-- `Client.listIntegrations`: the registered integration names, sorted
(`sort.Strings`). Go iterates the map (in unspecified order) and then sorts;
the sort makes the result independent of that order, which is proved below. -/
def Client.listIntegrations (client : Client) : List String :=
  List.insertionSort strLe (client.integrations.map Prod.fst)

/-- Results of the external effects consumed by `prepareEvent`: the value
`uuid()` would return, the value `time.Now().Unix()` would return, and the
result of `os.Hostname()` (`none` when it errors). `uuid` and the clock are
outside the excerpt; the spec guarantees a generated identifier is non-empty
and the current time is non-zero, which appear below as hypotheses. -/
structure PrepareEnv where
  newUuid : String
  nowUnix : Int
  hostname : Option String
deriving Repr

/-- The defaulting half of `prepareEvent` (everything before the final
`scope.ApplyToEvent` call), translated if-by-if from the source: identifier,
timestamp, level and server name are each set only when unset; SDK metadata,
platform and transaction are overwritten unconditionally. -/
def prepareEventDefaults (client : Client) (env : PrepareEnv) (event : Event) : Event :=
  let event := if event.EventID = "" then { event with EventID := env.newUuid } else event
  let event := if event.Timestamp = 0 then { event with Timestamp := env.nowUnix } else event
  let event := if event.Level = "" then { event with Level := LevelInfo } else event
  let event :=
    if event.ServerName = "" then
      match env.hostname with
      | some hostname => { event with ServerName := hostname }
      | none => event
    else event
  { event with
    Sdk := { Name := "sentry.go", Version := VERSION,
             Integrations := client.listIntegrations,
             Packages := [{ Name := "sentry-go", Version := VERSION }] },
    Platform := "go",
    Transaction := "Don\x27t sneak into my computer please" }

/-- `prepareEvent`: apply the defaults, then delegate to the scope capability,
which may return a modified event or veto (`none`). -/
def prepareEvent (client : Client) (env : PrepareEnv) (event : Event)
    (hint : Option EventHint) (scope : EventModifier) : Option Event :=
  scope.ApplyToEvent (prepareEventDefaults client env event) hint

/-- One call made by the pipeline to an external collaborator. -/
inductive Call where
  | applyToEvent (event : Event) (hint : Option EventHint)
  | beforeSend (event : Event) (hint : EventHint)
  | sendEvent (event : Event)
deriving DecidableEq, Repr

/-- Whether a recorded call is a user-filter (`BeforeSend`) invocation. -/
def Call.isBeforeSend : Call → Bool
  | .beforeSend _ _ => true
  | _ => false

/-- Whether a recorded call is a transport (`SendEvent`) invocation. -/
def Call.isSend : Call → Bool
  | .sendEvent _ => true
  | _ => false

/-- Whether a recorded call is a scope (`ApplyToEvent`) invocation. -/
def Call.isApply : Call → Bool
  | .applyToEvent _ _ => true
  | _ => false

/-- The hint argument of a recorded `BeforeSend` invocation, if it is one. -/
def Call.beforeSendHint : Call → Option EventHint
  | .beforeSend _ h => some h
  | _ => none

/-- Outcome of `processEvent`: a drop (with the reason text of the
`fmt.Errorf` the source returns) or a transport result. -/
inductive ProcResult where
  | dropped (reason : String)
  | sent (r : SendResult)
deriving DecidableEq, Repr

/-- `processEvent`, the ordered, short-circuiting pipeline. `randomFloat` is
the per-call uniform draw in `[0,1)` (`float32` values are exact rationals, so
the comparisons are modelled on `ℚ`); note the draw is only consulted when the
configured rate is non-zero, exactly as in the source. Returns the outcome
together with the trace of external calls made. -/
def processEvent (client : Client) (randomFloat : ℚ) (env : PrepareEnv)
    (scope : EventModifier) (event : Event) (hint : Option EventHint) :
    ProcResult × List Call :=
  let options := client.options
  if options.SampleRate ≠ 0 ∧ randomFloat > options.SampleRate then
    (ProcResult.dropped "event dropped due to SampleRate hit", [])
  else
    let prepared := prepareEventDefaults client env event
    match prepareEvent client env event hint scope with
    | none =>
        (ProcResult.dropped "event dropped by one of the EventProcessors",
         [Call.applyToEvent prepared hint])
    | some event =>
        match options.BeforeSend with
        | some beforeSendFn =>
            let h := match hint with
              | none => emptyEventHint
              | some hint => hint
            match beforeSendFn event h with
            | none =>
                (ProcResult.dropped "event dropped due to BeforeSend callback",
                 [Call.applyToEvent prepared hint, Call.beforeSend event h])
            | some event2 =>
                (ProcResult.sent (client.Transport.SendEvent event2),
                 [Call.applyToEvent prepared hint, Call.beforeSend event h,
                  Call.sendEvent event2])
        | none =>
            (ProcResult.sent (client.Transport.SendEvent event),
             [Call.applyToEvent prepared hint, Call.sendEvent event])

/-- `NewClient`: apply environment-variable fallbacks for unset
DSN/release/environment fields, parse the endpoint descriptor (fatal on
failure), log a notice when the DSN is empty, resolve the transport and build
the integration registry. `getenv` stands for `os.Getenv`; `newDsnImpl` stands
for the external DSN parser `NewDsn` (spec section 6), which returns either a parse
error or an optional parsed DSN (`none` for an empty descriptor);
`defaultTransport` stands for `new(HTTPTransport)`. Returns the client
together with the debug-channel messages emitted, or the parse error.
The debug-logger redirection is effect-only and is not modelled. -/
def NewClient (getenv : String → String)
    (newDsnImpl : String → Except String (Option Dsn))
    (defaultTransport : Transport) (options : ClientOptions) :
    Except String (Client × List String) :=
  let options := if options.Dsn = "" then
      { options with Dsn := getenv "SENTRY_DSN" } else options
  let options := if options.Release = "" then
      { options with Release := getenv "SENTRY_RELEASE" } else options
  let options := if options.Environment = "" then
      { options with Environment := getenv "SENTRY_ENVIRONMENT" } else options
  match newDsnImpl options.Dsn with
  | .error err => .error err
  | .ok dsn =>
      let notices :=
        if dsn = none then ["Sentry client initialized with an empty DSN"] else []
      let transport := match options.Transport with
        | none => defaultTransport
        | some t => t
      let setup := setupIntegrations options.Integrations
      .ok ({ options := options, dsn := dsn, integrations := setup.1,
             Transport := transport },
           notices ++ setup.2.map (fun i => "Integration installed: " ++ i.Name))

/-- Modelled from the spec: a concrete instance of the external DSN-parser
interface (`NewDsn` is not part of the excerpt). Per the spec, an empty
descriptor is not a parse failure and yields no DSN value; a malformed
descriptor yields a parse error; anything else parses. Used only to
instantiate theorems that quantify over any parser with this interface. -/
def NewDsn (s : String) : Except String (Option Dsn) :=
  if s = "" then .ok none
  else if s.startsWith "http" then .ok (some { raw := s })
  else .error ("[Sentry] DsnParseError: invalid url: " ++ s)

/-- The dynamic type of a recovered panic value, as the recovery helpers
classify it: a value whose dynamic type implements `error` (carrying its
`Error()` text), a plain `string`, or anything else (e.g. an `int`).
In Go the first two cases are disjoint: type `string` has no methods and
cannot implement `error`. -/
inductive RecoveredValue where
  | err (message : String)
  | str (s : String)
  | other (tag : Nat)
deriving DecidableEq, Repr

/-- The ambient client+scope pair (`Hub`), abstracted to an identity. -/
structure Hub where
  id : Nat
deriving DecidableEq, Repr

/-- One capture call dispatched by a recovery helper: capture-by-error or
capture-by-message, on the global entry point (`none`) or on a resolved hub,
with the hint it supplied. -/
inductive CaptureCall where
  | exception (hub : Option Hub) (message : String) (hint : Option EventHint)
  | message (hub : Option Hub) (text : String) (hint : Option EventHint)
deriving DecidableEq, Repr

/-- `Recover`: if no explicit recovered value was supplied, consult the
panic-recovery mechanism (`recoverResult` stands for the value `recover()`
would return); then dispatch by dynamic type: `error` to the global
capture-by-error entry point, `string` to the global capture-by-message entry
point, anything else is not captured. Returns the capture calls dispatched.
The source ignores its receiver and its scope parameter, so neither appears
here. -/
def Recover (recoveredErr : Option RecoveredValue)
    (recoverResult : Option RecoveredValue) : List CaptureCall :=
  let recoveredErr := match recoveredErr with
    | none => recoverResult
    | some v => some v
  match recoveredErr with
  | none => []
  | some (.err e) => [CaptureCall.exception none e none]
  | some (.str s) => [CaptureCall.message none s none]
  | some (.other _) => []

/-- `RecoverWithContext`: like `Recover`, but resolves the hub from the
propagation context when one is attached (`hasHubOnContext`, `ctxHub` stand
for `HasHubOnContext`/`GetHubFromContext`, `curHub` for `CurrentHub()`), and
dispatches on that hub with an `EventHint` carrying the context. -/
def RecoverWithContext (ctx : Ctx) (hasHubOnContext : Bool) (ctxHub curHub : Hub)
    (recoveredErr : Option RecoveredValue)
    (recoverResult : Option RecoveredValue) : List CaptureCall :=
  let recoveredErr := match recoveredErr with
    | none => recoverResult
    | some v => some v
  match recoveredErr with
  | none => []
  | some v =>
      let currentHub := if hasHubOnContext then ctxHub else curHub
      match v with
      | .err e =>
          [CaptureCall.exception (some currentHub) e (some { Context := some ctx })]
      | .str s =>
          [CaptureCall.message (some currentHub) s (some { Context := some ctx })]
      | .other _ => []

/-! Concrete fixtures used to instantiate the theorems below on closed inputs. -/

/-- A concrete transport. -/
def testTransport : Transport :=
  { SendEvent := fun _ => { response := some 200, err := none } }

/-- A concrete prepare-stage environment. -/
def testEnv : PrepareEnv :=
  { newUuid := "cafebabe", nowUnix := 1700000000, hostname := some "host1" }

/-- A scope capability that returns the event unchanged. -/
def idScope : EventModifier := { ApplyToEvent := fun e _ => some e }

/-- A scope capability that vetoes every event. -/
def vetoScope : EventModifier := { ApplyToEvent := fun _ _ => none }

/-- A client from given options, with the registry its integrations build. -/
def mkTestClient (opts : ClientOptions) : Client :=
  { options := opts, dsn := none, integrations := (setupIntegrations opts.Integrations).1,
    Transport := testTransport }

/-- When the sampling condition does not fire, `processEvent` never returns
the sampling drop reason and always reaches the scope capability. -/
theorem processEvent_not_sampled (client : Client) (randomFloat : ℚ)
    (env : PrepareEnv) (scope : EventModifier) (event : Event)
    (hint : Option EventHint)
    (hcond : ¬(client.options.SampleRate ≠ 0 ∧
               randomFloat > client.options.SampleRate)) :
    (processEvent client randomFloat env scope event hint).1 ≠
      ProcResult.dropped "event dropped due to SampleRate hit" ∧
    ((processEvent client randomFloat env scope event hint).2.any Call.isApply) = true := by
  cases hint with
  | none =>
      simp only [processEvent]
      rw [if_neg hcond]
      cases prepareEvent client env event none scope with
      | none => exact ⟨by simp, by simp [Call.isApply]⟩
      | some ev =>
          dsimp only
          cases client.options.BeforeSend with
          | none => exact ⟨by simp, by simp [Call.isApply]⟩
          | some fn =>
              dsimp only
              cases fn ev emptyEventHint with
              | none => exact ⟨by simp, by simp [Call.isApply]⟩
              | some ev2 => exact ⟨by simp, by simp [Call.isApply]⟩
  | some h =>
      simp only [processEvent]
      rw [if_neg hcond]
      cases prepareEvent client env event (some h) scope with
      | none => exact ⟨by simp, by simp [Call.isApply]⟩
      | some ev =>
          dsimp only
          cases client.options.BeforeSend with
          | none => exact ⟨by simp, by simp [Call.isApply]⟩
          | some fn =>
              dsimp only
              cases fn ev h with
              | none => exact ⟨by simp, by simp [Call.isApply]⟩
              | some ev2 => exact ⟨by simp, by simp [Call.isApply]⟩

/-- Claim C1: with a configured sampling rate of exactly 0.0, the sampling
stage never drops the event: `processEvent` never returns the sampling drop
reason, and the pipeline always proceeds to the preparation stage (the scope
capability is reached). -/
theorem sampleRate_zero_bypasses_sampling (client : Client) (randomFloat : ℚ)
    (env : PrepareEnv) (scope : EventModifier) (event : Event)
    (hint : Option EventHint) (hrate : client.options.SampleRate = 0) :
    (processEvent client randomFloat env scope event hint).1 ≠
      ProcResult.dropped "event dropped due to SampleRate hit" ∧
    ((processEvent client randomFloat env scope event hint).2.any Call.isApply) = true :=
  processEvent_not_sampled client randomFloat env scope event hint
    (by rw [hrate]; simp)

/-- Witness for C1: a concrete run with rate 0.0 and a vetoing scope is not
sampled out and reaches preparation. -/
theorem sampleRate_zero_bypasses_sampling_witness :
    (processEvent (mkTestClient { SampleRate := 0 }) (1/2) testEnv vetoScope {} none).1 ≠
      ProcResult.dropped "event dropped due to SampleRate hit" ∧
    ((processEvent (mkTestClient { SampleRate := 0 }) (1/2) testEnv vetoScope {}
        none).2.any Call.isApply) = true :=
  sampleRate_zero_bypasses_sampling (mkTestClient { SampleRate := 0 }) (1/2) testEnv
    vetoScope {} none rfl

/-- Claim C9: with a configured sampling rate of exactly 1.0, sampling never
drops, for every value of the per-call random draw in `[0,1)`: the draw can
never exceed the rate, so `processEvent` never returns the sampling drop
reason and always proceeds to the preparation stage. -/
theorem sampleRate_one_never_drops (client : Client) (randomFloat : ℚ)
    (env : PrepareEnv) (scope : EventModifier) (event : Event)
    (hint : Option EventHint) (hrate : client.options.SampleRate = 1)
    (_hlo : 0 ≤ randomFloat) (hhi : randomFloat < 1) :
    (processEvent client randomFloat env scope event hint).1 ≠
      ProcResult.dropped "event dropped due to SampleRate hit" ∧
    ((processEvent client randomFloat env scope event hint).2.any Call.isApply) = true :=
  processEvent_not_sampled client randomFloat env scope event hint
    (by rw [hrate]; exact fun hc => absurd hc.2 (not_lt.mpr hhi.le))

/-- Witness for C9: a concrete run with rate 1.0 and draw 1/2 is not sampled
out and reaches preparation. -/
theorem sampleRate_one_never_drops_witness :
    (processEvent (mkTestClient { SampleRate := 1 }) (1/2) testEnv idScope {} none).1 ≠
      ProcResult.dropped "event dropped due to SampleRate hit" ∧
    ((processEvent (mkTestClient { SampleRate := 1 }) (1/2) testEnv idScope {}
        none).2.any Call.isApply) = true :=
  sampleRate_one_never_drops (mkTestClient { SampleRate := 1 }) (1/2) testEnv
    idScope {} none rfl (by norm_num) (by norm_num)

/-- The hint `processEvent` hands to the user filter: the capture call's hint,
or the fresh empty hint when none was supplied. -/
def hintOrEmpty : Option EventHint → EventHint
  | none => emptyEventHint
  | some h => h

/-- A user filter that vetoes every event. -/
def dropAllFilter : Event → EventHint → Option Event := fun _ _ => none

/-- A user filter that keeps every event unchanged. -/
def keepAllFilter : Event → EventHint → Option Event := fun e _ => some e

/-- Claim C3: the pipeline stages short-circuit in order. If the scope
capability vetoes (`prepareEvent` returns `none`), the user filter is never
invoked and the transport is never called; if the configured user filter
vetoes the event the scope stage produced, the transport is never called. -/
theorem pipeline_short_circuits (client : Client) (randomFloat : ℚ)
    (env : PrepareEnv) (scope : EventModifier) (event : Event)
    (hint : Option EventHint) :
    (prepareEvent client env event hint scope = none →
      ((processEvent client randomFloat env scope event hint).2.any
          Call.isBeforeSend) = false ∧
      ((processEvent client randomFloat env scope event hint).2.any
          Call.isSend) = false) ∧
    (∀ fn, client.options.BeforeSend = some fn →
      (∀ ev, prepareEvent client env event hint scope = some ev →
        fn ev (hintOrEmpty hint) = none) →
      ((processEvent client randomFloat env scope event hint).2.any
          Call.isSend) = false) := by
  constructor
  · intro hp
    cases hint with
    | none =>
        simp only [processEvent]
        by_cases hs : (client.options.SampleRate ≠ 0 ∧
            randomFloat > client.options.SampleRate)
        · rw [if_pos hs]; exact ⟨rfl, rfl⟩
        · rw [if_neg hs, hp]
          exact ⟨by simp [Call.isBeforeSend], by simp [Call.isSend]⟩
    | some h =>
        simp only [processEvent]
        by_cases hs : (client.options.SampleRate ≠ 0 ∧
            randomFloat > client.options.SampleRate)
        · rw [if_pos hs]; exact ⟨rfl, rfl⟩
        · rw [if_neg hs, hp]
          exact ⟨by simp [Call.isBeforeSend], by simp [Call.isSend]⟩
  · intro fn hbs hveto
    cases hint with
    | none =>
        simp only [processEvent]
        by_cases hs : (client.options.SampleRate ≠ 0 ∧
            randomFloat > client.options.SampleRate)
        · rw [if_pos hs]; rfl
        · rw [if_neg hs]
          cases hp : prepareEvent client env event none scope with
          | none => simp [Call.isSend]
          | some ev =>
              dsimp only
              rw [hbs]
              dsimp only
              have hv := hveto ev hp
              dsimp only [hintOrEmpty] at hv
              rw [hv]
              simp [Call.isSend]
    | some h =>
        simp only [processEvent]
        by_cases hs : (client.options.SampleRate ≠ 0 ∧
            randomFloat > client.options.SampleRate)
        · rw [if_pos hs]; rfl
        · rw [if_neg hs]
          cases hp : prepareEvent client env event (some h) scope with
          | none => simp [Call.isSend]
          | some ev =>
              dsimp only
              rw [hbs]
              dsimp only
              have hv := hveto ev hp
              dsimp only [hintOrEmpty] at hv
              rw [hv]
              simp [Call.isSend]

/-- Witness for C3: with a vetoing scope no filter call and no transport call
is recorded, and with an always-vetoing user filter no transport call is
recorded. -/
theorem pipeline_short_circuits_witness :
    (((processEvent (mkTestClient { SampleRate := 0 }) (1/2) testEnv vetoScope {}
          none).2.any Call.isBeforeSend) = false ∧
      ((processEvent (mkTestClient { SampleRate := 0 }) (1/2) testEnv vetoScope {}
          none).2.any Call.isSend) = false) ∧
    ((processEvent (mkTestClient { SampleRate := 0, BeforeSend := some dropAllFilter })
        (1/2) testEnv idScope {} none).2.any Call.isSend) = false :=
  ⟨(pipeline_short_circuits (mkTestClient { SampleRate := 0 }) (1/2) testEnv
      vetoScope {} none).1 rfl,
   (pipeline_short_circuits (mkTestClient { SampleRate := 0, BeforeSend := some dropAllFilter })
      (1/2) testEnv idScope {} none).2 dropAllFilter rfl (fun _ _ => rfl)⟩

/-- Claim C10: the user filter never receives a nil hint. Every `BeforeSend`
invocation recorded in the trace carries exactly the substituted hint (the
supplied hint, or a fresh empty `EventHint` when the capture call supplied
none); and whenever the filter is configured and the earlier stages pass, such
an invocation is recorded. -/
theorem beforeSend_hint_never_nil (client : Client) (randomFloat : ℚ)
    (env : PrepareEnv) (scope : EventModifier) (event : Event)
    (hint : Option EventHint) :
    ((processEvent client randomFloat env scope event hint).2.filterMap
        Call.beforeSendHint) =
      List.replicate
        ((processEvent client randomFloat env scope event hint).2.filterMap
            Call.beforeSendHint).length (hintOrEmpty hint) ∧
    (∀ fn ev, client.options.BeforeSend = some fn →
      ¬(client.options.SampleRate ≠ 0 ∧
        randomFloat > client.options.SampleRate) →
      prepareEvent client env event hint scope = some ev →
      Call.beforeSend ev (hintOrEmpty hint) ∈
        (processEvent client randomFloat env scope event hint).2) := by
  constructor
  · cases hint with
    | none =>
        simp only [processEvent]
        by_cases hs : (client.options.SampleRate ≠ 0 ∧
            randomFloat > client.options.SampleRate)
        · rw [if_pos hs]; rfl
        · rw [if_neg hs]
          cases prepareEvent client env event none scope with
          | none => simp [Call.beforeSendHint]
          | some ev =>
              dsimp only
              cases client.options.BeforeSend with
              | none => simp [Call.beforeSendHint]
              | some fn =>
                  dsimp only
                  cases fn ev emptyEventHint with
                  | none => simp [Call.beforeSendHint, hintOrEmpty]
                  | some ev2 => simp [Call.beforeSendHint, hintOrEmpty]
    | some h =>
        simp only [processEvent]
        by_cases hs : (client.options.SampleRate ≠ 0 ∧
            randomFloat > client.options.SampleRate)
        · rw [if_pos hs]; rfl
        · rw [if_neg hs]
          cases prepareEvent client env event (some h) scope with
          | none => simp [Call.beforeSendHint]
          | some ev =>
              dsimp only
              cases client.options.BeforeSend with
              | none => simp [Call.beforeSendHint]
              | some fn =>
                  dsimp only
                  cases fn ev h with
                  | none => simp [Call.beforeSendHint, hintOrEmpty]
                  | some ev2 => simp [Call.beforeSendHint, hintOrEmpty]
  · intro fn ev hbs hs hp
    cases hint with
    | none =>
        simp only [processEvent]
        rw [if_neg hs, hp]
        dsimp only
        rw [hbs]
        dsimp only
        cases fn ev emptyEventHint with
        | none => simp [hintOrEmpty]
        | some ev2 => simp [hintOrEmpty]
    | some h =>
        simp only [processEvent]
        rw [if_neg hs, hp]
        dsimp only
        rw [hbs]
        dsimp only
        cases fn ev h with
        | none => simp [hintOrEmpty]
        | some ev2 => simp [hintOrEmpty]

/-- Witness for C10: a concrete run with a configured filter and no supplied
hint records a filter invocation carrying the fresh empty hint. -/
theorem beforeSend_hint_never_nil_witness :
    ((processEvent (mkTestClient { SampleRate := 0, BeforeSend := some keepAllFilter })
        (1/2) testEnv idScope {} none).2.filterMap Call.beforeSendHint) =
      List.replicate
        ((processEvent (mkTestClient { SampleRate := 0, BeforeSend := some keepAllFilter })
            (1/2) testEnv idScope {} none).2.filterMap Call.beforeSendHint).length
        (hintOrEmpty none) ∧
    Call.beforeSend
        (prepareEventDefaults (mkTestClient { SampleRate := 0, BeforeSend := some keepAllFilter })
          testEnv {}) (hintOrEmpty none) ∈
      (processEvent (mkTestClient { SampleRate := 0, BeforeSend := some keepAllFilter })
          (1/2) testEnv idScope {} none).2 :=
  ⟨(beforeSend_hint_never_nil (mkTestClient { SampleRate := 0, BeforeSend := some keepAllFilter })
      (1/2) testEnv idScope {} none).1,
   (beforeSend_hint_never_nil (mkTestClient { SampleRate := 0, BeforeSend := some keepAllFilter })
      (1/2) testEnv idScope {} none).2 keepAllFilter
      (prepareEventDefaults (mkTestClient { SampleRate := 0, BeforeSend := some keepAllFilter })
        testEnv {}) rfl (by decide) rfl⟩

/-- Claim C2: every event that completes the preparation stage (before the
scope capability is applied) has a non-empty identifier, a non-zero timestamp
and a non-empty severity level; and when the caller supplied no level, the
level is "info". The identifier generator and the clock are outside the
excerpt; per the spec the generated identifier is non-empty and the current
time is non-zero, which appear here as the two hypotheses on `env`. -/
theorem prepareEventDefaults_invariants (client : Client) (env : PrepareEnv)
    (event : Event) (hU : env.newUuid ≠ "") (hT : env.nowUnix ≠ 0) :
    (prepareEventDefaults client env event).EventID ≠ "" ∧
    (prepareEventDefaults client env event).Timestamp ≠ 0 ∧
    (prepareEventDefaults client env event).Level ≠ "" ∧
    (event.Level = "" → (prepareEventDefaults client env event).Level = "info") := by
  unfold prepareEventDefaults
  cases hhost : env.hostname with
  | none =>
      simp only [apply_ite Event.EventID, apply_ite Event.Timestamp,
        apply_ite Event.Level, apply_ite Event.ServerName]
      split_ifs <;> simp_all [LevelInfo]
  | some hostname =>
      simp only [apply_ite Event.EventID, apply_ite Event.Timestamp,
        apply_ite Event.Level, apply_ite Event.ServerName]
      split_ifs <;> simp_all [LevelInfo]

/-- Witness for C2: a concrete prepared event has the invariants. -/
theorem prepareEventDefaults_invariants_witness :
    (prepareEventDefaults (mkTestClient {}) testEnv {}).EventID ≠ "" ∧
    (prepareEventDefaults (mkTestClient {}) testEnv {}).Timestamp ≠ 0 ∧
    (prepareEventDefaults (mkTestClient {}) testEnv {}).Level ≠ "" ∧
    ((Event.Level {}) = "" → (prepareEventDefaults (mkTestClient {}) testEnv {}).Level = "info") :=
  prepareEventDefaults_invariants (mkTestClient {}) testEnv {} (by decide) (by decide)

/-- Claim C6: the preparation stage unconditionally overwrites the SDK
metadata, the platform tag and the transaction label with client-computed
values regardless of prior content, while identifier, timestamp, level and
server name are each left unchanged when previously set (and defaulted, in
the fixed order, only when unset). -/
theorem prepareEventDefaults_frame (client : Client) (env : PrepareEnv)
    (event : Event) :
    (prepareEventDefaults client env event).Sdk =
      { Name := "sentry.go", Version := VERSION,
        Integrations := client.listIntegrations,
        Packages := [{ Name := "sentry-go", Version := VERSION }] } ∧
    (prepareEventDefaults client env event).Platform = "go" ∧
    (prepareEventDefaults client env event).Transaction =
      "Don\x27t sneak into my computer please" ∧
    (event.EventID ≠ "" → (prepareEventDefaults client env event).EventID = event.EventID) ∧
    (event.Timestamp ≠ 0 → (prepareEventDefaults client env event).Timestamp = event.Timestamp) ∧
    (event.Level ≠ "" → (prepareEventDefaults client env event).Level = event.Level) ∧
    (event.ServerName ≠ "" →
      (prepareEventDefaults client env event).ServerName = event.ServerName) ∧
    (event.EventID = "" → (prepareEventDefaults client env event).EventID = env.newUuid) ∧
    (event.Timestamp = 0 → (prepareEventDefaults client env event).Timestamp = env.nowUnix) ∧
    (event.Level = "" → (prepareEventDefaults client env event).Level = LevelInfo) ∧
    (event.ServerName = "" →
      (prepareEventDefaults client env event).ServerName =
        env.hostname.getD event.ServerName) := by
  unfold prepareEventDefaults
  cases hhost : env.hostname with
  | none =>
      simp only [apply_ite Event.EventID, apply_ite Event.Timestamp,
        apply_ite Event.Level, apply_ite Event.ServerName]
      split_ifs <;> simp_all
  | some hostname =>
      simp only [apply_ite Event.EventID, apply_ite Event.Timestamp,
        apply_ite Event.Level, apply_ite Event.ServerName]
      split_ifs <;> simp_all

/-- Witness for C6: on a concrete event with every defaultable field already
set, preparation overwrites the SDK metadata, platform and transaction and
leaves identifier, timestamp, level and server name unchanged. -/
theorem prepareEventDefaults_frame_witness :
    (prepareEventDefaults (mkTestClient {}) testEnv
        { EventID := "id1", Timestamp := 7, Level := "error", ServerName := "srv" }).Sdk =
      { Name := "sentry.go", Version := VERSION,
        Integrations := (mkTestClient {}).listIntegrations,
        Packages := [{ Name := "sentry-go", Version := VERSION }] } ∧
    (prepareEventDefaults (mkTestClient {}) testEnv
        { EventID := "id1", Timestamp := 7, Level := "error", ServerName := "srv" }).EventID = "id1" ∧
    (prepareEventDefaults (mkTestClient {}) testEnv
        { EventID := "id1", Timestamp := 7, Level := "error", ServerName := "srv" }).Timestamp = 7 ∧
    (prepareEventDefaults (mkTestClient {}) testEnv
        { EventID := "id1", Timestamp := 7, Level := "error", ServerName := "srv" }).Level = "error" ∧
    (prepareEventDefaults (mkTestClient {}) testEnv
        { EventID := "id1", Timestamp := 7, Level := "error", ServerName := "srv" }).ServerName = "srv" := by
  have h := prepareEventDefaults_frame (mkTestClient {}) testEnv
    { EventID := "id1", Timestamp := 7, Level := "error", ServerName := "srv" }
  exact ⟨h.1, h.2.2.2.1 (by decide), h.2.2.2.2.1 (by decide),
    h.2.2.2.2.2.1 (by decide), h.2.2.2.2.2.2.1 (by decide)⟩

/-- Claim C4: with a present recovered value, the recovery helpers dispatch by
dynamic type: an `error` value yields exactly one capture-by-error call, a
plain `string` exactly one capture-by-message call, and any other type no
capture call — for both `Recover` and `RecoverWithContext` (the latter on the
hub resolved from the context, with a hint carrying the context). -/
theorem recover_dispatch_by_type :
    (∀ rr e, Recover (some (RecoveredValue.err e)) rr =
        [CaptureCall.exception none e none]) ∧
    (∀ rr s, Recover (some (RecoveredValue.str s)) rr =
        [CaptureCall.message none s none]) ∧
    (∀ rr t, Recover (some (RecoveredValue.other t)) rr = []) ∧
    (∀ ctx hb ch cur rr e,
        RecoverWithContext ctx hb ch cur (some (RecoveredValue.err e)) rr =
          [CaptureCall.exception (some (if hb then ch else cur)) e
            (some { Context := some ctx })]) ∧
    (∀ ctx hb ch cur rr s,
        RecoverWithContext ctx hb ch cur (some (RecoveredValue.str s)) rr =
          [CaptureCall.message (some (if hb then ch else cur)) s
            (some { Context := some ctx })]) ∧
    (∀ ctx hb ch cur rr t,
        RecoverWithContext ctx hb ch cur (some (RecoveredValue.other t)) rr = []) ∧
    (∀ e, Recover none (some (RecoveredValue.err e)) =
        [CaptureCall.exception none e none]) ∧
    (∀ s, Recover none (some (RecoveredValue.str s)) =
        [CaptureCall.message none s none]) ∧
    (∀ t, Recover none (some (RecoveredValue.other t)) = []) ∧
    (∀ ctx hb ch cur e,
        RecoverWithContext ctx hb ch cur none (some (RecoveredValue.err e)) =
          [CaptureCall.exception (some (if hb then ch else cur)) e
            (some { Context := some ctx })]) ∧
    (∀ ctx hb ch cur s,
        RecoverWithContext ctx hb ch cur none (some (RecoveredValue.str s)) =
          [CaptureCall.message (some (if hb then ch else cur)) s
            (some { Context := some ctx })]) ∧
    (∀ ctx hb ch cur t,
        RecoverWithContext ctx hb ch cur none (some (RecoveredValue.other t)) = []) :=
  ⟨fun _ _ => rfl, fun _ _ => rfl, fun _ _ => rfl,
   fun _ _ _ _ _ _ => rfl, fun _ _ _ _ _ _ => rfl, fun _ _ _ _ _ _ => rfl,
   fun _ => rfl, fun _ => rfl, fun _ => rfl,
   fun _ _ _ _ _ => rfl, fun _ _ _ _ _ => rfl, fun _ _ _ _ _ => rfl⟩

/-- Claim C8: registering two integrations under the same name leaves exactly
one entry in the registry — the one registered last — while the one-time setup
hook is invoked once for each registration. -/
theorem duplicate_name_last_registration_wins (i1 i2 : Integration)
    (hname : i1.Name = i2.Name) :
    setupIntegrations (some [i1, i2]) = ([(i2.Name, i2)], [i1, i2]) := by
  simp only [setupIntegrations, List.foldl, mapInsert]
  simp [hname]

/-- Witness for C8: two concrete integrations named "dup". -/
theorem duplicate_name_last_registration_wins_witness :
    setupIntegrations (some [{ Name := "dup", id := 0 }, { Name := "dup", id := 1 }]) =
      ([("dup", { Name := "dup", id := 1 })],
       [{ Name := "dup", id := 0 }, { Name := "dup", id := 1 }]) :=
  duplicate_name_last_registration_wins
    { Name := "dup", id := 0 } { Name := "dup", id := 1 } rfl

/-- Keys of a map assignment: unchanged when the key is already present,
appended otherwise. -/
theorem mapInsert_keys (m : List (String × Integration)) (k : String)
    (v : Integration) :
    (mapInsert m k v).map Prod.fst =
      if m.any (fun p => p.1 = k) then m.map Prod.fst
      else m.map Prod.fst ++ [k] := by
  unfold mapInsert
  split_ifs with h
  · rw [List.map_map]
    apply List.map_congr_left
    intro p _
    by_cases hp : p.1 = k
    · simp [hp]
    · simp [hp]
  · simp

/-- The key list of the registry built by folding map assignments over an
integration list: it stays duplicate-free, and its members are the starting
keys together with the integration names. -/
theorem registry_keys (l : List Integration) :
    ∀ m : List (String × Integration), (m.map Prod.fst).Nodup →
      ((l.foldl (fun m i => mapInsert m i.Name i) m).map Prod.fst).Nodup ∧
      ∀ a, (a ∈ (l.foldl (fun m i => mapInsert m i.Name i) m).map Prod.fst ↔
            a ∈ m.map Prod.fst ∨ a ∈ l.map Integration.Name) := by
  induction l with
  | nil =>
      intro m hm
      exact ⟨hm, fun a => by simp⟩
  | cons i l ih =>
      intro m hm
      have hk := mapInsert_keys m i.Name i
      have hnd : ((mapInsert m i.Name i).map Prod.fst).Nodup := by
        rw [hk]
        split_ifs with h
        · exact hm
        · have hnotin : i.Name ∉ m.map Prod.fst := by
            intro hmem
            rcases List.mem_map.mp hmem with ⟨p, hp, hfst⟩
            exact absurd (List.any_eq_true.mpr ⟨p, hp, by simp [hfst]⟩) h
          rw [List.nodup_append]
          exact ⟨hm, List.nodup_singleton _,
            fun a ha hb => hnotin ((List.mem_singleton.mp hb) ▸ ha)⟩
      have hmem : ∀ a, a ∈ (mapInsert m i.Name i).map Prod.fst ↔
          a ∈ m.map Prod.fst ∨ a = i.Name := by
        intro a
        rw [hk]
        split_ifs with h
        · constructor
          · exact fun ha => Or.inl ha
          · rintro (ha | rfl)
            · exact ha
            · rcases List.any_eq_true.mp h with ⟨p, hp, he⟩
              exact List.mem_map.mpr ⟨p, hp, by simpa using he⟩
        · simp
      obtain ⟨ihnd, ihmem⟩ := ih (mapInsert m i.Name i) hnd
      simp only [List.foldl_cons]
      refine ⟨ihnd, fun a => ?_⟩
      rw [ihmem a, hmem a]
      simp only [List.map_cons, List.mem_cons]
      tauto

/-- Claim C7: the integration listing is deterministic for a fixed set of
registered integrations — independent of registration order — and sorted
lexicographically; registering integrations named "b", "a", "c" lists
`["a","b","c"]`. -/
theorem listIntegrations_sorted_deterministic :
    (∀ l1 l2 : List Integration, List.Perm l1 l2 →
       (mkTestClient { Integrations := some l1 }).listIntegrations =
       (mkTestClient { Integrations := some l2 }).listIntegrations) ∧
    (∀ l : List Integration,
       List.Sorted (· ≤ ·)
         ((mkTestClient { Integrations := some l }).listIntegrations)) ∧
    ((mkTestClient { Integrations := some [{ Name := "b", id := 0 }, { Name := "a", id := 1 }, { Name := "c", id := 2 }] }).listIntegrations
       = ["a", "b", "c"]) := by
  refine ⟨?_, ?_, ?_⟩
  · intro l1 l2 hperm
    have h1 := registry_keys l1 [] (by simp)
    have h2 := registry_keys l2 [] (by simp)
    have hmem : ∀ a, a ∈ (l1.foldl (fun m i => mapInsert m i.Name i) []).map Prod.fst ↔
        a ∈ (l2.foldl (fun m i => mapInsert m i.Name i) []).map Prod.fst := by
      intro a
      rw [h1.2 a, h2.2 a]
      simp only [List.map_nil, List.not_mem_nil, false_or]
      exact (hperm.map Integration.Name).mem_iff
    have hp := (List.perm_ext_iff_of_nodup h1.1 h2.1).mpr hmem
    show List.insertionSort strLe _ = List.insertionSort strLe _
    exact List.eq_of_perm_of_sorted
      ((List.perm_insertionSort _ _).trans
        (hp.trans (List.perm_insertionSort _ _).symm))
      (List.sorted_insertionSort _ _) (List.sorted_insertionSort _ _)
  · intro l
    exact (List.sorted_insertionSort strLe _).imp fun h => (strLe_iff _ _).mp h
  · decide

/-- Witness for C7: swapping the registration order of "b" and "a" leaves the
listing unchanged, and the "b","a","c" example lists alphabetically. -/
theorem listIntegrations_sorted_deterministic_witness :
    ((mkTestClient { Integrations := some [{ Name := "b", id := 0 }, { Name := "a", id := 1 }] }).listIntegrations =
     (mkTestClient { Integrations := some [{ Name := "a", id := 1 }, { Name := "b", id := 0 }] }).listIntegrations) ∧
    ((mkTestClient { Integrations := some [{ Name := "b", id := 0 }, { Name := "a", id := 1 }, { Name := "c", id := 2 }] }).listIntegrations
       = ["a", "b", "c"]) :=
  ⟨listIntegrations_sorted_deterministic.1 _ _
     (List.Perm.swap ({ Name := "a", id := 1 } : Integration)
       ({ Name := "b", id := 0 } : Integration) []),
   listIntegrations_sorted_deterministic.2.2⟩

/-- Claim C5: `NewClient` returns an error — and produces no client — exactly
when the endpoint descriptor fails to parse; an empty descriptor is not a
parse failure: for any parser satisfying the spec interface (empty input
parses to no value, without error), construction succeeds and the empty-DSN
notice is logged on the debug channel. -/
theorem newClient_error_iff_parse_error (getenv : String → String)
    (newDsnImpl : String → Except String (Option Dsn))
    (defaultTransport : Transport) (options : ClientOptions) :
    (∀ e, newDsnImpl (if options.Dsn = "" then getenv "SENTRY_DSN" else options.Dsn) =
        Except.error e →
      NewClient getenv newDsnImpl defaultTransport options = Except.error e) ∧
    (∀ d, newDsnImpl (if options.Dsn = "" then getenv "SENTRY_DSN" else options.Dsn) =
        Except.ok d →
      ∃ c logs, NewClient getenv newDsnImpl defaultTransport options =
        Except.ok (c, logs)) ∧
    ((if options.Dsn = "" then getenv "SENTRY_DSN" else options.Dsn) = "" →
      newDsnImpl "" = Except.ok none →
      ∃ c logs, NewClient getenv newDsnImpl defaultTransport options =
          Except.ok (c, logs) ∧
        "Sentry client initialized with an empty DSN" ∈ logs) := by
  refine ⟨?_, ?_, ?_⟩
  · intro e he
    simp only [NewClient, apply_ite ClientOptions.Dsn, ite_self]
    rw [he]
  · intro d hd
    simp only [NewClient, apply_ite ClientOptions.Dsn, ite_self]
    rw [hd]
    exact ⟨_, _, rfl⟩
  · intro hdsn hparse
    simp only [NewClient, apply_ite ClientOptions.Dsn, ite_self]
    rw [hdsn, hparse]
    exact ⟨_, _, rfl, by simp⟩

/-- Witness for C5: constructing with an empty DSN (and an empty environment)
against the modelled parser succeeds and logs the empty-DSN notice. -/
theorem newClient_error_iff_parse_error_witness :
    ∃ c logs, NewClient (fun _ => "") NewDsn testTransport {} =
        Except.ok (c, logs) ∧
      "Sentry client initialized with an empty DSN" ∈ logs :=
  (newClient_error_iff_parse_error (fun _ => "") NewDsn testTransport {}).2.2
    rfl rfl

end Sentry
